import Mathlib

/-!
Verification of the fee-cascade and work-plan allocation engine of
`src/app.py` (MEP Fee and Work Plan Generator).

The Python code is shallowly embedded as follows.

* Python floats are modelled by rational numbers (`ℚ`), so the theorems
  are about the exact arithmetic that the float code approximates; the
  source applies no operation (comparison with 0, division, rounding)
  whose float behaviour differs structurally from the rational one.
* Pandas dataframes of task rows are modelled as lists of records, in
  row order; a Python `dict` is modelled as an association list in
  insertion order, and a dict of toggles as a total function
  (absorbing `dict.get(key, default)`).
* Python exceptions are modelled with `Except`: `normalizeChecked`
  makes the possible `ZeroDivisionError` of `normalize` explicit.
* Pandas `Series.round` (numpy half-to-even rounding) is modelled by
  `roundHalfEven`.
-/

namespace WorkplanApp

/-- One row of a task-library dataframe: columns Phase, Task, BaseHours,
Enabled (`electrical_defaults_df` etc. in src/app.py). -/
structure LibRow where
  phase : String
  task : String
  baseHours : ℚ
  enabled : Bool
deriving DecidableEq, Repr

/-- One row of an allocation output dataframe: columns Phase, Task, Hours,
Fee ($) (`build_plan_from_library` output, src/app.py lines 61-66). -/
structure PlanRow where
  phase : String
  task : String
  hours : ℚ
  fee : ℚ
deriving DecidableEq, Repr

/-- A weight map: a Python dict from string keys to numbers, modelled as an
association list in dict iteration order. -/
abbrev WeightMap := List (String × ℚ)

/-- The sum of the clamped values, `sum(max(v, 0.0) for v in
weights.values())` in `normalize` (src/app.py line 15). -/
def clampedTotal (weights : WeightMap) : ℚ :=
  (weights.map (fun kv => max kv.2 0)).sum

/-- Embedding of `normalize` (src/app.py lines 14-19): clamp every value to
`max(v, 0)` and divide by the clamped total; if that total is `≤ 0`,
assign every key the uniform value `1/n`. -/
def normalize (weights : WeightMap) : WeightMap :=
  let total := clampedTotal weights
  if total ≤ 0 then
    weights.map (fun kv => (kv.1, 1 / (weights.length : ℚ)))
  else
    weights.map (fun kv => (kv.1, max kv.2 0 / total))

/-- Division as Python evaluates it: `ZeroDivisionError` on a zero
divisor. -/
def pyDiv (a b : ℚ) : Except String ℚ :=
  if b = 0 then Except.error "ZeroDivisionError" else Except.ok (a / b)

/-- A dict comprehension assigning to every key the checked quotient
`f kv / d`; as in Python, the division is evaluated once per key, so an
empty dict evaluates no division at all. -/
def mapPyDiv (f : String × ℚ → ℚ) (d : ℚ) : WeightMap → Except String WeightMap
  | [] => Except.ok []
  | kv :: rest => do
    let v ← pyDiv (f kv) d
    let tail ← mapPyDiv f d rest
    Except.ok ((kv.1, v) :: tail)

/-- Embedding of `normalize` with the Python exception behaviour made
explicit: both branches of the source are dict comprehensions whose body
divides, so each is modelled with `mapPyDiv`. -/
def normalizeChecked (weights : WeightMap) : Except String WeightMap :=
  let total := clampedTotal weights
  if total ≤ 0 then mapPyDiv (fun _ => 1) ((weights.length : ℚ)) weights
  else mapPyDiv (fun kv => max kv.2 0) total weights

theorem mapPyDiv_ok (f : String × ℚ → ℚ) (d : ℚ) (hd : d ≠ 0) :
    ∀ w : WeightMap, mapPyDiv f d w = Except.ok (w.map (fun kv => (kv.1, f kv / d))) := by
  intro w
  induction w with
  | nil => rfl
  | cons kv rest ih =>
    simp only [mapPyDiv, pyDiv, if_neg hd, ih]
    rfl

theorem normalizeChecked_ok (w : WeightMap) :
    normalizeChecked w = Except.ok (normalize w) := by
  unfold normalizeChecked normalize
  by_cases h : clampedTotal w ≤ 0
  · simp only [h, if_true]
    cases w with
    | nil => rfl
    | cons kv rest =>
      have hn : ((kv :: rest : WeightMap).length : ℚ) ≠ 0 := by
        simp only [List.length_cons]
        push_cast
        positivity
      rw [mapPyDiv_ok _ _ hn]
  · have h0 : clampedTotal w ≠ 0 := by
      intro hz
      exact h (le_of_eq hz)
    simp only [h, if_false]
    rw [mapPyDiv_ok _ _ h0]

/-- Key preservation: `normalize` never changes the key list. -/
theorem normalize_keys (w : WeightMap) :
    (normalize w).map (fun kv => kv.1) = w.map (fun kv => kv.1) := by
  unfold normalize
  by_cases h : clampedTotal w ≤ 0 <;> simp [h, List.map_map, Function.comp]

/-- The output of `normalize` always sums to 1 on a nonempty map. -/
theorem normalize_sum_one (w : WeightMap) (hw : w ≠ []) :
    ((normalize w).map (fun kv => kv.2)).sum = 1 := by
  have hlen : (w.length : ℚ) ≠ 0 := by
    simpa [Nat.cast_ne_zero] using List.length_pos.mpr hw |>.ne'
  unfold normalize
  by_cases h : clampedTotal w ≤ 0
  · simp only [h, if_true, List.map_map]
    have hconst : ((fun kv : String × ℚ => kv.2) ∘ fun kv : String × ℚ =>
        (kv.1, 1 / (w.length : ℚ))) = fun _ => 1 / (w.length : ℚ) := rfl
    rw [hconst, List.map_const', List.sum_replicate, nsmul_eq_mul]
    field_simp
  · have h0 : clampedTotal w ≠ 0 := fun hz => h (le_of_eq hz)
    simp only [h, if_false, List.map_map]
    have : (w.map ((fun kv => kv.2) ∘ fun kv : String × ℚ => (kv.1, max kv.2 0 / clampedTotal w))) =
        w.map (fun kv => max kv.2 0 * (clampedTotal w)⁻¹) := by
      simp [Function.comp, div_eq_mul_inv]
    rw [this, List.sum_map_mul_right]
    rw [show (w.map fun kv => max kv.2 0).sum = clampedTotal w from rfl]
    field_simp

/-- C2: for every weight map whose clamped values sum to `≤ 0` (including
the empty map, all-zero maps and all-negative maps), `normalize` returns
the uniform distribution `1/n` over its `n` keys, and `normalize` raises
no error on any input: the checked embedding always returns `Except.ok`,
because the division by `n` in the degenerate branch is only evaluated
when at least one key exists, and the division in the main branch has a
positive divisor. -/
theorem C2_normalize_degenerate_uniform :
    (∀ w : WeightMap, normalizeChecked w = Except.ok (normalize w)) ∧
    (∀ w : WeightMap, clampedTotal w ≤ 0 →
      normalize w = w.map (fun kv => (kv.1, 1 / (w.length : ℚ)))) := by
  constructor
  · exact normalizeChecked_ok
  · intro w h
    unfold normalize
    simp [h]

theorem C2_witness :
    clampedTotal [("A", 0), ("B", 0), ("C", 0)] ≤ 0 ∧
    normalizeChecked [("A", 0), ("B", 0), ("C", 0)] =
      Except.ok (normalize [("A", 0), ("B", 0), ("C", 0)]) ∧
    normalize [("A", 0), ("B", 0), ("C", 0)] = [("A", 1/3), ("B", 1/3), ("C", 1/3)] := by
  refine ⟨by norm_num [clampedTotal], C2_normalize_degenerate_uniform.1 _, ?_⟩
  rw [C2_normalize_degenerate_uniform.2 [("A", 0), ("B", 0), ("C", 0)] (by norm_num [clampedTotal])]
  norm_num

/-- The enabled-row filter `df[df.get("Enabled", True) == True]`
(src/app.py line 42); every library in the app carries an Enabled
column. -/
def filterEnabled (lib : List LibRow) : List LibRow :=
  lib.filter (fun r => r.enabled)

/-- Lines 42-44 of src/app.py: after filtering to enabled rows, an empty
library is replaced by the single row
`{"Phase": "SD", "Task": "No tasks enabled", "BaseHours": 1.0}`. -/
def effectiveLib (lib : List LibRow) : List LibRow :=
  let df := filterEnabled lib
  if df.isEmpty then [⟨"SD", "No tasks enabled", 1, true⟩] else df

/-- Lines 53-55 of src/app.py: the candidate rows of one phase; if no row
of the effective library carries this phase, a filler row
`{"Phase": ph, "Task": f"{ph} - General", "BaseHours": 1.0}` is
synthesized. -/
def phaseRows (df : List LibRow) (ph : String) : List LibRow :=
  let p := df.filter (fun r => r.phase == ph)
  if p.isEmpty then [⟨ph, ph ++ " - General", 1, true⟩] else p

/-- Lines 49-61 of src/app.py, the body of the per-phase loop: the phase
fee is `target_fee * frac`, phase hours are `phase_fee / rate` when
`rate > 0` and `0.0` otherwise, and each candidate row receives hours
proportional to its BaseHours weight (zero when the weight sum is not
positive) and fee `hours * rate`. -/
def allocPhase (df : List LibRow) (targetFee rate : ℚ) (ph : String) (frac : ℚ) : List PlanRow :=
  let phaseFee := targetFee * frac
  let phaseHours := if 0 < rate then phaseFee / rate else 0
  let p := phaseRows df ph
  let baseSum := (p.map (fun r => r.baseHours)).sum
  p.map (fun r =>
    let hours := if 0 < baseSum then r.baseHours / baseSum * phaseHours else 0
    { phase := r.phase, task := r.task, hours := hours, fee := hours * rate })

/-- The concatenated plan before the final display rounding (src/app.py
lines 38-63): one `allocPhase` block per key of the normalized phase
split, in split order. -/
def build_plan_core (task_df : List LibRow) (target_fee rate : ℚ) (phase_split : WeightMap) : List PlanRow :=
  ((normalize phase_split).map
    (fun pf => allocPhase (effectiveLib task_df) target_fee rate pf.1 pf.2)).flatten

/-- Round to the nearest integer, ties to even: the rounding used by
pandas `Series.round` (numpy rounding) on lines 64-65 of src/app.py. -/
def roundHalfEven (x : ℚ) : ℤ :=
  let f := ⌊x⌋
  if x - f < 1/2 then f
  else if 1/2 < x - f then f + 1
  else if f % 2 = 0 then f else f + 1

/-- Lines 64-65 of src/app.py: Hours rounded to one decimal and Fee to
whole dollars, applied only at the output boundary. -/
def roundPlan (rows : List PlanRow) : List PlanRow :=
  rows.map (fun r =>
    { phase := r.phase, task := r.task,
      hours := (roundHalfEven (r.hours * 10) : ℚ) / 10,
      fee := (roundHalfEven r.fee : ℚ) })

/-- Embedding of `build_plan_from_library` (src/app.py lines 33-66).
The numeric coercion of line 46 (`pd.to_numeric(...).fillna(0.0)`) is a
no-op in this model because `baseHours` is already numeric. -/
def build_plan_from_library (task_df : List LibRow) (target_fee rate : ℚ) (phase_split : WeightMap) : List PlanRow :=
  roundPlan (build_plan_core task_df target_fee rate phase_split)

/-- The total of the Fee column of a plan dataframe. -/
def planFeeTotal (rows : List PlanRow) : ℚ :=
  (rows.map (fun r => r.fee)).sum

theorem allocPhase_fee_sum (df : List LibRow) (targetFee rate : ℚ) (ph : String) (frac : ℚ)
    (hrate : 0 < rate)
    (hW : 0 < ((phaseRows df ph).map (fun r => r.baseHours)).sum) :
    ((allocPhase df targetFee rate ph frac).map (fun r => r.fee)).sum = targetFee * frac := by
  have hS : ((phaseRows df ph).map (fun r => r.baseHours)).sum ≠ 0 := ne_of_gt hW
  have hr : rate ≠ 0 := ne_of_gt hrate
  simp only [allocPhase, if_pos hrate, if_pos hW, List.map_map]
  have hfun : ((fun r : PlanRow => r.fee) ∘ fun r : LibRow =>
      { phase := r.phase, task := r.task,
        hours := r.baseHours / ((phaseRows df ph).map (fun r => r.baseHours)).sum *
          (targetFee * frac / rate),
        fee := r.baseHours / ((phaseRows df ph).map (fun r => r.baseHours)).sum *
          (targetFee * frac / rate) * rate : PlanRow }) =
      fun r : LibRow => r.baseHours *
        (targetFee * frac / rate * rate / ((phaseRows df ph).map (fun r => r.baseHours)).sum) := by
    funext r
    simp only [Function.comp]
    ring
  rw [hfun, List.sum_map_mul_right]
  field_simp

/-- Shared conservation lemma: with a positive billing rate, a nonempty
phase split, and a positive candidate weight sum in every phase of the
split (automatic for a phase with no matching rows, whose filler row has
weight 1), the unrounded plan total equals the target fee. -/
theorem build_plan_core_fee_total (lib : List LibRow) (t rate : ℚ) (split : WeightMap)
    (hrate : 0 < rate) (hs : split ≠ [])
    (hW : ∀ ph ∈ split.map (fun kv => kv.1),
      0 < ((phaseRows (effectiveLib lib) ph).map (fun r => r.baseHours)).sum) :
    planFeeTotal (build_plan_core lib t rate split) = t := by
  unfold planFeeTotal build_plan_core
  rw [List.map_flatten, List.sum_flatten, List.map_map, List.map_map]
  simp only [Function.comp_def]
  have hstep : ∀ pf ∈ normalize split,
      ((allocPhase (effectiveLib lib) t rate pf.1 pf.2).map (fun r => r.fee)).sum = t * pf.2 := by
    intro pf hpf
    have hkey : pf.1 ∈ split.map (fun kv => kv.1) := by
      rw [← normalize_keys]
      exact List.mem_map_of_mem (fun kv => kv.1) hpf
    exact allocPhase_fee_sum (effectiveLib lib) t rate pf.1 pf.2 hrate (hW pf.1 hkey)
  rw [List.map_congr_left hstep]
  have : ((normalize split).map (fun pf => t * pf.2)).sum =
      t * ((normalize split).map (fun pf => pf.2)).sum := by
    rw [← List.sum_map_mul_left]
  rw [this, normalize_sum_one split hs, mul_one]

theorem roundHalfEven_abs_sub (x : ℚ) : |(roundHalfEven x : ℚ) - x| ≤ 1/2 := by
  have h0 : (⌊x⌋ : ℚ) ≤ x := Int.floor_le x
  have h1 : x < (⌊x⌋ : ℚ) + 1 := Int.lt_floor_add_one x
  simp only [roundHalfEven]
  split_ifs with hlt hgt hev
  · rw [abs_le]
    constructor <;> linarith
  · rw [abs_le]
    push_cast
    constructor <;> linarith
  · have heq : x - (⌊x⌋ : ℚ) = 1/2 := le_antisymm (not_lt.mp hgt) (not_lt.mp hlt)
    rw [abs_le]
    constructor <;> linarith
  · have heq : x - (⌊x⌋ : ℚ) = 1/2 := le_antisymm (not_lt.mp hgt) (not_lt.mp hlt)
    rw [abs_le]
    push_cast
    constructor <;> linarith

/-- Whole-dollar rounding moves the Fee total of a plan by at most half a
unit per row. -/
theorem roundPlan_fee_total_close (rows : List PlanRow) :
    |planFeeTotal (roundPlan rows) - planFeeTotal rows| ≤ rows.length * (1/2) := by
  induction rows with
  | nil => simp [planFeeTotal, roundPlan]
  | cons r rest ih =>
    have hr := roundHalfEven_abs_sub r.fee
    simp only [planFeeTotal, roundPlan, List.map_cons, List.map_map, List.sum_cons,
      List.length_cons] at *
    have hsplit : (roundHalfEven r.fee : ℚ) +
        (rest.map ((fun r : PlanRow => r.fee) ∘ fun r : PlanRow =>
          { phase := r.phase, task := r.task,
            hours := (roundHalfEven (r.hours * 10) : ℚ) / 10,
            fee := (roundHalfEven r.fee : ℚ) : PlanRow })).sum -
        (r.fee + (rest.map (fun r : PlanRow => r.fee)).sum) =
        ((roundHalfEven r.fee : ℚ) - r.fee) +
        ((rest.map ((fun r : PlanRow => r.fee) ∘ fun r : PlanRow =>
          { phase := r.phase, task := r.task,
            hours := (roundHalfEven (r.hours * 10) : ℚ) / 10,
            fee := (roundHalfEven r.fee : ℚ) : PlanRow })).sum -
         (rest.map (fun r : PlanRow => r.fee)).sum) := by
      ring
    rw [hsplit]
    calc |((roundHalfEven r.fee : ℚ) - r.fee) + _| ≤
        |(roundHalfEven r.fee : ℚ) - r.fee| + _ := abs_add _ _
      _ ≤ 1/2 + rest.length * (1/2) := add_le_add hr ih
      _ = (rest.length + 1) * (1/2) := by ring
    push_cast
    linarith

/-- C1 (amended): the claimed conservation holds exactly for the
UNROUNDED fees: for every phase with a positive candidate weight sum and
a positive billing rate, the per-task fees of `allocPhase` sum to
exactly the phase fee `targetFee * frac`; after the final whole-dollar
rounding the total moves by at most half a unit per row, so the claimed
bound of at most 1 unit per phase fails for phases with more than two
rows (see the counterexample). -/
theorem C1_phase_fee_conservation :
    (∀ (df : List LibRow) (targetFee rate : ℚ) (ph : String) (frac : ℚ),
      0 < rate → 0 < ((phaseRows df ph).map (fun r => r.baseHours)).sum →
      ((allocPhase df targetFee rate ph frac).map (fun r => r.fee)).sum = targetFee * frac) ∧
    (∀ rows : List PlanRow,
      |planFeeTotal (roundPlan rows) - planFeeTotal rows| ≤ rows.length * (1/2)) :=
  ⟨fun df t rate ph frac hrate hW => allocPhase_fee_sum df t rate ph frac hrate hW,
   roundPlan_fee_total_close⟩

theorem C1_witness :
    0 < (2:ℚ) ∧
    0 < ((phaseRows [⟨"SD", "T", 2, true⟩] "SD").map (fun r => r.baseHours)).sum ∧
    ((allocPhase [⟨"SD", "T", 2, true⟩] 7 2 "SD" 1).map (fun r => r.fee)).sum = 7 * 1 :=
  ⟨by norm_num,
   by simp +decide [phaseRows, List.filter] <;> norm_num,
   C1_phase_fee_conservation.1 [⟨"SD", "T", 2, true⟩] 7 2 "SD" 1 (by norm_num)
     (by simp +decide [phaseRows, List.filter] <;> norm_num)⟩

/-- C1 counterexample to the claimed tolerance: four equal-weight tasks in
one phase with phase fee 101.6 and rate 1 each get an unrounded fee of
25.4, which rounds to 25; the rounded phase total is 100, at distance
1.6 > 1 from the phase fee. -/
theorem C1_counterexample :
    planFeeTotal (build_plan_from_library
      [⟨"SD", "A", 1, true⟩, ⟨"SD", "B", 1, true⟩, ⟨"SD", "C", 1, true⟩, ⟨"SD", "D", 1, true⟩]
      (508/5) 1 [("SD", 100)]) = 100 ∧
    (508/5 : ℚ) - 100 > 1 := by
  constructor
  · have h1 : build_plan_core
        [⟨"SD", "A", 1, true⟩, ⟨"SD", "B", 1, true⟩, ⟨"SD", "C", 1, true⟩, ⟨"SD", "D", 1, true⟩]
        (508/5) 1 [("SD", 100)] =
        [⟨"SD", "A", 127/5, 127/5⟩, ⟨"SD", "B", 127/5, 127/5⟩,
         ⟨"SD", "C", 127/5, 127/5⟩, ⟨"SD", "D", 127/5, 127/5⟩] := by
      simp +decide [build_plan_core, normalize, clampedTotal, effectiveLib, filterEnabled,
        phaseRows, allocPhase, List.filter] <;> norm_num
    have h2 : roundHalfEven (127/5) = 25 := by norm_num [roundHalfEven]
    have h3 : roundHalfEven (127/5 * 10) = 254 := by norm_num [roundHalfEven]
    unfold build_plan_from_library
    rw [h1]
    simp [roundPlan, planFeeTotal, h2, h3]
    norm_num
  · norm_num

theorem flatten_map_singleton {α β : Type} (l : List α) (g : α → β) :
    (l.map (fun x => [g x])).flatten = l.map g := by
  induction l with
  | nil => rfl
  | cons x xs ih => simp [ih]

/-- C3 (amended): when every task of the library is disabled, the
effective library is replaced by the single synthesized row
("SD", "No tasks enabled", weight 1.0), and every phase of the split
gets exactly one output row — that sentinel row for phase "SD", a
"&lt;ph&gt; - General" filler row otherwise — which absorbs the FULL phase
fee `t * frac` (with hours `t * frac / rate`); the budgeted fee is not
dropped and the row is not (0, 0). -/
theorem C3_all_disabled_filler (lib : List LibRow) (t rate : ℚ) (split : WeightMap)
    (hdis : filterEnabled lib = []) (hrate : 0 < rate) :
    build_plan_core lib t rate split =
      (normalize split).map (fun pf =>
        if pf.1 = "SD" then
          { phase := "SD", task := "No tasks enabled",
            hours := t * pf.2 / rate, fee := t * pf.2 }
        else
          { phase := pf.1, task := pf.1 ++ " - General",
            hours := t * pf.2 / rate, fee := t * pf.2 }) := by
  have hr : rate ≠ 0 := ne_of_gt hrate
  have hdf : effectiveLib lib = [⟨"SD", "No tasks enabled", 1, true⟩] := by
    simp [effectiveLib, hdis]
  have hone : ∀ (ph : String) (frac : ℚ),
      allocPhase (effectiveLib lib) t rate ph frac =
        [if ph = "SD" then
          { phase := "SD", task := "No tasks enabled",
            hours := t * frac / rate, fee := t * frac }
        else
          { phase := ph, task := ph ++ " - General",
            hours := t * frac / rate, fee := t * frac }] := by
    intro ph frac
    rw [hdf]
    by_cases hph : ph = "SD"
    · subst hph
      simp [allocPhase, phaseRows, List.filter, hrate, div_mul_cancel₀ _ hr]
    · have hph2 : "SD" ≠ ph := Ne.symm hph
      have hbeq : (("SD" : String) == ph) = false := beq_eq_false_iff_ne.mpr hph2
      simp [allocPhase, phaseRows, List.filter, hrate, hph, hbeq,
        div_mul_cancel₀ _ hr]
  unfold build_plan_core
  rw [List.map_congr_left (fun pf _ => hone pf.1 pf.2), flatten_map_singleton]

theorem C3_witness :
    filterEnabled [⟨"SD", "T", 5, false⟩] = [] ∧ 0 < (100:ℚ) ∧
    build_plan_core [⟨"SD", "T", 5, false⟩] 1000 100 [("SD", 100)] =
      (normalize [("SD", 100)]).map (fun pf =>
        if pf.1 = "SD" then
          { phase := "SD", task := "No tasks enabled",
            hours := 1000 * pf.2 / 100, fee := 1000 * pf.2 }
        else
          { phase := pf.1, task := pf.1 ++ " - General",
            hours := 1000 * pf.2 / 100, fee := 1000 * pf.2 }) :=
  ⟨rfl, by norm_num,
   C3_all_disabled_filler [⟨"SD", "T", 5, false⟩] 1000 100 [("SD", 100)] rfl (by norm_num)⟩

/-- C3 counterexample to the claim as stated: with the single task of the
library disabled, a phase fee of 1000 and rate 100, the output for the
phase is the sentinel row with hours 10 and fee 1000 — the budgeted fee
is absorbed by the sentinel row, not dropped, contradicting the claimed
row ("SD", "No tasks enabled", 0, 0). -/
theorem C3_counterexample :
    build_plan_from_library [⟨"SD", "T", 5, false⟩] 1000 100 [("SD", 100)] =
      [{ phase := "SD", task := "No tasks enabled", hours := 10, fee := 1000 }] ∧
    (1000:ℚ) ≠ 0 := by
  constructor
  · have h1 : build_plan_core [⟨"SD", "T", 5, false⟩] 1000 100 [("SD", 100)] =
        [⟨"SD", "No tasks enabled", 10, 1000⟩] := by
      simp +decide [build_plan_core, normalize, clampedTotal, effectiveLib, filterEnabled,
        phaseRows, allocPhase, List.filter] <;> norm_num
    have h2 : roundHalfEven (1000:ℚ) = 1000 := by norm_num [roundHalfEven]
    have h3 : roundHalfEven ((10:ℚ) * 10) = 100 := by norm_num [roundHalfEven]
    unfold build_plan_from_library
    rw [h1]
    simp [roundPlan, h2, h3]
    norm_num
  · norm_num

/-- C9 (amended): the total output fee equals the target fee — every phase
of the split receives its full budget, with synthesized filler rows
absorbing the budget of phases with no matching candidate task —
PROVIDED the billing rate is positive, the split is nonempty, and every
phase of the split has a positive candidate weight sum (a phase with no
matching rows gets a weight-1 filler row, so only phases whose enabled
matching tasks all have zero BaseHours violate this; see the
counterexample). Stated for the unrounded plan. -/
theorem C9_total_fee_conservation (lib : List LibRow) (t rate : ℚ) (split : WeightMap)
    (hrate : 0 < rate) (hs : split ≠ [])
    (hW : ∀ ph ∈ split.map (fun kv => kv.1),
      0 < ((phaseRows (effectiveLib lib) ph).map (fun r => r.baseHours)).sum) :
    planFeeTotal (build_plan_core lib t rate split) = t :=
  build_plan_core_fee_total lib t rate split hrate hs hW

theorem C9_witness :
    0 < (2:ℚ) ∧
    ([("SD", 60), ("DD", 40)] : WeightMap) ≠ [] ∧
    0 < ((phaseRows (effectiveLib [⟨"SD", "T", 2, true⟩]) "SD").map (fun r => r.baseHours)).sum ∧
    0 < ((phaseRows (effectiveLib [⟨"SD", "T", 2, true⟩]) "DD").map (fun r => r.baseHours)).sum ∧
    planFeeTotal (build_plan_core [⟨"SD", "T", 2, true⟩] 1000 2 [("SD", 60), ("DD", 40)]) = 1000 :=
  ⟨by norm_num, by simp,
   by simp +decide [phaseRows, effectiveLib, filterEnabled, List.filter] <;> norm_num,
   by simp +decide [phaseRows, effectiveLib, filterEnabled, List.filter] <;> norm_num,
   C9_total_fee_conservation [⟨"SD", "T", 2, true⟩] 1000 2 [("SD", 60), ("DD", 40)]
     (by norm_num) (by simp)
     (by
       intro ph hph
       simp only [List.map_cons, List.map_nil, List.mem_cons, List.not_mem_nil, or_false] at hph
       rcases hph with h | h <;> subst h <;>
         simp +decide [phaseRows, effectiveLib, filterEnabled, List.filter] <;> norm_num)⟩

/-- C9 counterexample to the claim as stated: a library whose only (and
enabled) task has BaseHours 0 gives the phase a zero weight sum, so the
whole phase fee of 1000 is dropped: the total output fee is 0, not 1000,
far outside any rounding tolerance — the claim does not hold for every
task library. -/
theorem C9_counterexample :
    planFeeTotal (build_plan_from_library [⟨"SD", "Zero task", 0, true⟩] 1000 1 [("SD", 100)]) = 0 ∧
    (0:ℚ) ≠ 1000 ∧ (1000:ℚ) - 0 > 1 := by
  refine ⟨?_, by norm_num, by norm_num⟩
  have h1 : build_plan_core [⟨"SD", "Zero task", 0, true⟩] 1000 1 [("SD", 100)] =
      [⟨"SD", "Zero task", 0, 0⟩] := by
    simp +decide [build_plan_core, normalize, clampedTotal, effectiveLib, filterEnabled,
      phaseRows, allocPhase, List.filter] <;> norm_num
  have h2 : roundHalfEven (0:ℚ) = 0 := by norm_num [roundHalfEven]
  unfold build_plan_from_library
  rw [h1]
  simp [roundPlan, planFeeTotal, h2]

theorem sum_map_one_eq_length (l : List LibRow) (h : ∀ r ∈ l, r.baseHours = 1) :
    (l.map (fun r => r.baseHours)).sum = l.length := by
  induction l with
  | nil => simp
  | cons r rest ih =>
    simp only [List.map_cons, List.sum_cons, List.length_cons]
    rw [h r (List.mem_cons_self r rest), ih (fun x hx => h x (List.mem_cons_of_mem r hx))]
    push_cast
    ring

theorem phaseRows_baseSum_pos_of_ones (df : List LibRow) (ph : String)
    (h1 : ∀ r ∈ df, r.baseHours = 1) :
    0 < ((phaseRows df ph).map (fun r => r.baseHours)).sum := by
  unfold phaseRows
  by_cases hp : (df.filter (fun r => r.phase == ph)).isEmpty = true
  · simp [hp]
  · rw [if_neg hp]
    have hmem : ∀ r ∈ df.filter (fun r => r.phase == ph), r.baseHours = 1 :=
      fun r hr => h1 r (List.mem_of_mem_filter hr)
    rw [sum_map_one_eq_length _ hmem]
    have hne : df.filter (fun r => r.phase == ph) ≠ [] := by
      intro hnil
      exact hp (by simp [hnil])
    exact_mod_cast List.length_pos.mpr hne

/-- The fixed phase order of the app (src/app.py line 9). -/
def PHASES : List String := ["SD", "DD", "CD", "Bidding", "CA"]

/-- Line 710 of src/app.py: the Fire Protection carveout, 10% of the
Plumbing/Fire target fee (the float literal 0.10 is the exact rational
1/10 in this model). -/
def fire_fee (plumbing_fire_target_fee : ℚ) : ℚ :=
  plumbing_fire_target_fee * (1/10)

/-- Line 711 of src/app.py: the Plumbing share, the remainder of the
Plumbing/Fire target fee. -/
def plumbing_fee (plumbing_fire_target_fee : ℚ) : ℚ :=
  plumbing_fire_target_fee - fire_fee plumbing_fire_target_fee

/-- Line 862 of src/app.py: the fire library, one enabled weight-1
"Fire Protection" row per phase. -/
def fire_lib : List LibRow :=
  PHASES.map (fun ph => ⟨ph, "Fire Protection", 1, true⟩)

/-- Lines 860-865 of src/app.py: the combined Plumbing/Fire plan `pf_df`,
the plumbing plan at 90% of the target fee concatenated with the fire
plan at 10%. -/
def pf_df (p_base_df : List LibRow) (pf_target rate : ℚ) (phase_split : WeightMap) : List PlanRow :=
  build_plan_from_library p_base_df (plumbing_fee pf_target) rate phase_split ++
    build_plan_from_library fire_lib (fire_fee pf_target) rate phase_split

/-- The same combined Plumbing/Fire plan before the display rounding. -/
def pf_df_core (p_base_df : List LibRow) (pf_target rate : ℚ) (phase_split : WeightMap) : List PlanRow :=
  build_plan_core p_base_df (plumbing_fee pf_target) rate phase_split ++
    build_plan_core fire_lib (fire_fee pf_target) rate phase_split

theorem fire_lib_phase_sum_pos (ph : String) :
    0 < ((phaseRows (effectiveLib fire_lib) ph).map (fun r => r.baseHours)).sum := by
  have heff : effectiveLib fire_lib = fire_lib := rfl
  rw [heff]
  apply phaseRows_baseSum_pos_of_ones
  intro r hr
  simp only [fire_lib, List.mem_map] at hr
  obtain ⟨p, _, rfl⟩ := hr
  rfl

/-- C10 (amended): the carveout arithmetic is exact and unconditional —
`fire_fee` is 10% of the Plumbing/Fire target and `plumbing_fee` the
remainder, so they sum back to the target; and the combined Plumbing/Fire
plan total equals the Plumbing/Fire target fee (before rounding)
PROVIDED the billing rate is positive, the split is nonempty, and every
phase of the split has a positive plumbing candidate weight sum. The
fire side needs no weight hypothesis, because every fire row has weight
1. Without the plumbing weight hypothesis the total-fee part of the
claim fails (see the counterexample). -/
theorem C10_fire_carveout_conservation (pf_target rate : ℚ) (p_base : List LibRow)
    (split : WeightMap) (hrate : 0 < rate) (hs : split ≠ [])
    (hW : ∀ ph ∈ split.map (fun kv => kv.1),
      0 < ((phaseRows (effectiveLib p_base) ph).map (fun r => r.baseHours)).sum) :
    fire_fee pf_target + plumbing_fee pf_target = pf_target ∧
    planFeeTotal (pf_df_core p_base pf_target rate split) = pf_target := by
  constructor
  · unfold plumbing_fee
    ring
  · unfold pf_df_core planFeeTotal
    rw [List.map_append, List.sum_append]
    have hp := build_plan_core_fee_total p_base (plumbing_fee pf_target) rate split hrate hs hW
    have hf := build_plan_core_fee_total fire_lib (fire_fee pf_target) rate split hrate hs
      (fun ph _ => fire_lib_phase_sum_pos ph)
    unfold planFeeTotal at hp hf
    rw [hp, hf]
    unfold plumbing_fee
    ring

theorem C10_witness :
    0 < (2:ℚ) ∧ ([("SD", 100)] : WeightMap) ≠ [] ∧
    0 < ((phaseRows (effectiveLib [⟨"SD", "T", 2, true⟩]) "SD").map (fun r => r.baseHours)).sum ∧
    (fire_fee 1000 + plumbing_fee 1000 = 1000 ∧
      planFeeTotal (pf_df_core [⟨"SD", "T", 2, true⟩] 1000 2 [("SD", 100)]) = 1000) :=
  ⟨by norm_num, by simp,
   by simp +decide [phaseRows, effectiveLib, filterEnabled, List.filter] <;> norm_num,
   C10_fire_carveout_conservation 1000 2 [⟨"SD", "T", 2, true⟩] [("SD", 100)]
     (by norm_num) (by simp)
     (by
       intro ph hph
       simp only [List.map_cons, List.map_nil, List.mem_cons, List.not_mem_nil, or_false] at hph
       subst hph
       simp +decide [phaseRows, effectiveLib, filterEnabled, List.filter] <;> norm_num)⟩

/-- C10 counterexample to the claim as stated: when the plumbing library's
only (and enabled) task has weight 0, the plumbing side drops its entire
90% share: the combined Plumbing/Fire total is only the fire share 100
of the Plumbing/Fire target 1000 — the claimed conservation does not
hold for every allocation run. -/
theorem C10_counterexample :
    planFeeTotal (pf_df [⟨"SD", "Zero task", 0, true⟩] 1000 1 [("SD", 100)]) = 100 ∧
    (100:ℚ) ≠ 1000 ∧ (1000:ℚ) - 100 > 1 := by
  refine ⟨?_, by norm_num, by norm_num⟩
  have hp : build_plan_core [⟨"SD", "Zero task", 0, true⟩] (plumbing_fee 1000) 1 [("SD", 100)] =
      [⟨"SD", "Zero task", 0, 0⟩] := by
    simp +decide [build_plan_core, normalize, clampedTotal, effectiveLib, filterEnabled,
      phaseRows, allocPhase, plumbing_fee, fire_fee, List.filter] <;> norm_num
  have hf : build_plan_core fire_lib (fire_fee 1000) 1 [("SD", 100)] =
      [⟨"SD", "Fire Protection", 100, 100⟩] := by
    simp +decide [build_plan_core, normalize, clampedTotal, effectiveLib, filterEnabled,
      phaseRows, allocPhase, fire_fee, fire_lib, PHASES, List.filter] <;> norm_num
  have h2 : roundHalfEven (0:ℚ) = 0 := by norm_num [roundHalfEven]
  have h3 : roundHalfEven (100:ℚ) = 100 := by norm_num [roundHalfEven]
  unfold pf_df build_plan_from_library
  rw [hp, hf]
  simp [roundPlan, planFeeTotal, h2, h3]

/-- ASCII lowering of one character: the effect of the case-insensitive
comparison of pandas `str.contains(kw, case=False)` on the ASCII keyword
and task strings of the app. -/
def lowerChar (c : Char) : Char :=
  if 65 ≤ c.toNat ∧ c.toNat ≤ 90 then Char.ofNat (c.toNat + 32) else c

/-- pat occurs in s as a contiguous substring. -/
def isInfixList (pat : List Char) : List Char → Bool
  | [] => pat.isEmpty
  | c :: rest => pat.isPrefixOf (c :: rest) || isInfixList pat rest

/-- One cell of `df["Task"].astype(str).str.contains(kw, case=False,
regex=False)` (src/app.py line 448): case-insensitive literal substring
containment. -/
def containsCI (s kw : String) : Bool :=
  isInfixList (kw.data.map lowerChar) (s.data.map lowerChar)

/-- A toggle-group dict (ELECTRICAL_GROUPS, MECH_GROUPS, PLUMB_GROUPS of
src/app.py lines 418-433): toggle name to keyword list, in dict order. -/
abbrev ToggleGroups := List (String × List String)

/-- The OR of the per-keyword masks built on lines 446-448 of src/app.py,
for one row. -/
def taskMatches (keywords : List String) (task : String) : Bool :=
  keywords.any (fun kw => containsCI task kw)

/-- The final Enabled value of one row after the sequential toggle loop of
apply_scope_toggles_to_lib (src/app.py lines 444-454): each group whose
keywords match the task overwrites Enabled with the toggle value — also
re-enabling matching rows when the toggle is on. -/
def toggleRowEnabled (groups : ToggleGroups) (toggles : String → Bool) (task : String) (en : Bool) : Bool :=
  groups.foldl (fun acc g => if taskMatches g.2 task then toggles g.1 else acc) en

/-- Embedding of apply_scope_toggles_to_lib (src/app.py lines 435-456);
`toggles` models `bool(toggles_state.get(toggle_name, True))` as a total
function. -/
def apply_scope_toggles_to_lib (lib_df : List LibRow) (groups : ToggleGroups) (toggles : String → Bool) : List LibRow :=
  lib_df.map (fun r => { r with enabled := toggleRowEnabled groups toggles r.task r.enabled })

/-- ELECTRICAL_GROUPS of src/app.py lines 418-422. -/
def ELECTRICAL_GROUPS : ToggleGroups :=
  [("Include EV Charging tasks", ["EV charging"]),
   ("Include Emergency / Life Safety tasks", ["Emergency / life safety", "Life safety"]),
   ("Include Permitting / AHJ tasks",
     ["Permit", "Plan check", "AHJ", "Comment responses", "Drawing revisions (permit"])]

theorem toggleRowEnabled_no_match (groups : ToggleGroups) (toggles : String → Bool)
    (task : String) (en : Bool)
    (h : ∀ g ∈ groups, taskMatches g.2 task = false) :
    toggleRowEnabled groups toggles task en = en := by
  induction groups with
  | nil => rfl
  | cons g gs ih =>
    have hg : taskMatches g.2 task = false := h g (List.mem_cons_self g gs)
    have hgs : ∀ x ∈ gs, taskMatches x.2 task = false :=
      fun x hx => h x (List.mem_cons_of_mem g hx)
    simp only [toggleRowEnabled, List.foldl_cons, hg, Bool.false_eq_true, if_false]
    exact ih hgs

theorem toggleRowEnabled_mono (groups : ToggleGroups) (tgOn tgOff : String → Bool)
    (himp : ∀ k, tgOff k = true → tgOn k = true) (task : String) :
    ∀ en en' : Bool, (en' = true → en = true) →
      toggleRowEnabled groups tgOff task en' = true →
      toggleRowEnabled groups tgOn task en = true := by
  induction groups with
  | nil =>
    intro en en' hen h
    exact hen h
  | cons g gs ih =>
    intro en en' hen h
    simp only [toggleRowEnabled, List.foldl_cons] at h ⊢
    by_cases hm : taskMatches g.2 task = true
    · rw [if_pos hm] at h ⊢
      exact ih _ _ (himp g.1) h
    · rw [if_neg hm] at h ⊢
      exact ih _ _ hen h

theorem filterEnabled_apply_sublist (lib : List LibRow) (groups : ToggleGroups)
    (tgOn tgOff : String → Bool) (himp : ∀ k, tgOff k = true → tgOn k = true) :
    List.Sublist (filterEnabled (apply_scope_toggles_to_lib lib groups tgOff))
      (filterEnabled (apply_scope_toggles_to_lib lib groups tgOn)) := by
  induction lib with
  | nil => simp [apply_scope_toggles_to_lib, filterEnabled]
  | cons r rest ih =>
    simp only [apply_scope_toggles_to_lib, filterEnabled, List.map_cons, List.filter_cons] at ih ⊢
    by_cases hoff : toggleRowEnabled groups tgOff r.task r.enabled = true
    · have hon : toggleRowEnabled groups tgOn r.task r.enabled = true :=
        toggleRowEnabled_mono groups tgOn tgOff himp r.task r.enabled r.enabled (fun h => h) hoff
      simp only [hoff, hon, if_true]
      exact List.Sublist.cons₂ _ ih
    · have hoff2 : toggleRowEnabled groups tgOff r.task r.enabled = false :=
        Bool.eq_false_iff.mpr hoff
      simp only [hoff2, Bool.false_eq_true, if_false]
      by_cases hon : toggleRowEnabled groups tgOn r.task r.enabled = true
      · simp only [hon, if_true]
        exact List.Sublist.cons _ ih
      · have hon2 : toggleRowEnabled groups tgOn r.task r.enabled = false :=
          Bool.eq_false_iff.mpr hon
        simp only [hon2, Bool.false_eq_true, if_false]
        exact ih

/-- C8: for a fixed library and fixed settings of all other toggles,
turning one scope toggle from true to false can only remove rows from
(never add rows to) the enabled candidate set produced by applying the
toggle groups to the library: the new candidate set is a sublist of the
old one. -/
theorem C8_toggle_monotonicity (groups : ToggleGroups) (toggles : String → Bool)
    (t : String) (lib : List LibRow) (hon : toggles t = true) :
    List.Sublist
      (filterEnabled (apply_scope_toggles_to_lib lib groups
        (fun k => if k = t then false else toggles k)))
      (filterEnabled (apply_scope_toggles_to_lib lib groups toggles)) := by
  apply filterEnabled_apply_sublist
  intro k hk
  by_cases hkt : k = t
  · subst hkt
    simp at hk
  · simpa [hkt] using hk

theorem C8_witness :
    (fun _ : String => true) "Include EV Charging tasks" = true ∧
    List.Sublist
      (filterEnabled (apply_scope_toggles_to_lib
        [⟨"SD", "EV charging assumptions", 8, true⟩, ⟨"SD", "Utility research", 10, true⟩]
        ELECTRICAL_GROUPS
        (fun k => if k = "Include EV Charging tasks" then false else (fun _ : String => true) k)))
      (filterEnabled (apply_scope_toggles_to_lib
        [⟨"SD", "EV charging assumptions", 8, true⟩, ⟨"SD", "Utility research", 10, true⟩]
        ELECTRICAL_GROUPS (fun _ : String => true))) :=
  ⟨rfl,
   C8_toggle_monotonicity ELECTRICAL_GROUPS (fun _ => true) "Include EV Charging tasks"
     [⟨"SD", "EV charging assumptions", 8, true⟩, ⟨"SD", "Utility research", 10, true⟩] rfl⟩

/-- C4 counterexample: a DISABLED task whose name contains the keyword
"EV charging" of a toggle that is on is re-enabled by
apply_scope_toggles_to_lib (the source comments this re-enable
explicitly), so the disabled task re-enters the enabled candidate set —
the claim that a disabled task is always excluded regardless of toggle
settings is false. -/
theorem C4_counterexample :
    filterEnabled (apply_scope_toggles_to_lib
      [⟨"SD", "EV charging assumptions", 8, false⟩] ELECTRICAL_GROUPS (fun _ => true)) =
      [⟨"SD", "EV charging assumptions", 8, true⟩] := by
  decide

/-- C4 (amended): a disabled task is excluded from the enabled candidate
set of `build_plan_from_library` (its filter keeps only enabled rows),
and the scope-toggle pass preserves the Enabled flag of any task whose
name matches no toggle-group keyword; the unrestricted claim is false
because apply_scope_toggles_to_lib re-enables a disabled task whose name
contains a keyword of a toggle that is on (see the counterexample). -/
theorem C4_disabled_exclusion (groups : ToggleGroups) (toggles : String → Bool)
    (lib : List LibRow) (r : LibRow) (hr : r.enabled = false)
    (hkw : ∀ g ∈ groups, taskMatches g.2 r.task = false) :
    toggleRowEnabled groups toggles r.task r.enabled = false ∧
    r ∉ filterEnabled (apply_scope_toggles_to_lib lib groups toggles) ∧
    r ∉ filterEnabled lib := by
  refine ⟨?_, ?_, ?_⟩
  · rw [toggleRowEnabled_no_match groups toggles r.task r.enabled hkw, hr]
  · intro hmem
    have hen := (List.mem_filter.mp hmem).2
    rw [hr] at hen
    exact Bool.false_ne_true hen
  · intro hmem
    have hen := (List.mem_filter.mp hmem).2
    rw [hr] at hen
    exact Bool.false_ne_true hen

theorem C4_witness :
    (⟨"SD", "Updated load calculations", 14, false⟩ : LibRow).enabled = false ∧
    (toggleRowEnabled ELECTRICAL_GROUPS (fun _ => true)
        (⟨"SD", "Updated load calculations", 14, false⟩ : LibRow).task
        (⟨"SD", "Updated load calculations", 14, false⟩ : LibRow).enabled = false ∧
      (⟨"SD", "Updated load calculations", 14, false⟩ : LibRow) ∉
        filterEnabled (apply_scope_toggles_to_lib
          [⟨"SD", "Updated load calculations", 14, false⟩] ELECTRICAL_GROUPS (fun _ => true)) ∧
      (⟨"SD", "Updated load calculations", 14, false⟩ : LibRow) ∉
        filterEnabled [⟨"SD", "Updated load calculations", 14, false⟩]) :=
  ⟨rfl,
   C4_disabled_exclusion ELECTRICAL_GROUPS (fun _ => true)
     [⟨"SD", "Updated load calculations", 14, false⟩]
     ⟨"SD", "Updated load calculations", 14, false⟩ rfl (by decide)⟩

/-- The whitespace test of Python str.strip for the character set
appearing in this app. -/
def isSpaceChar (c : Char) : Bool :=
  c = ' ' || c = '\t' || c = '\n' || c = '\r'

/-- Python str.strip() applied to the tag cell (src/app.py line 321). -/
def pyStrip (s : String) : String :=
  String.mk (((s.data.dropWhile isSpaceChar).reverse.dropWhile isSpaceChar).reverse)

/-- One row of the plumbing task library, which additionally carries a Tag
column (`plumbing_defaults_df`, src/app.py lines 217-268). -/
structure PTask where
  phase : String
  task : String
  baseHours : ℚ
  tag : String
  enabled : Bool
deriving DecidableEq, Repr

/-- The body of the row loop of build_plumbing_task_df_from_library
(src/app.py lines 320-338), resolving the tag-driven overrides of one
row; `none` models the `continue` that drops a podium row when podium is
off. -/
def resolvePlumbRow (podium : Bool) (lux_units typ_units dom_units : ℤ) (r : PTask) : Option LibRow :=
  let tag := pyStrip r.tag
  if tag = "podium_only" then
    if podium then some ⟨r.phase, r.task, r.baseHours, true⟩ else none
  else if tag = "lux_units_4hr" then
    some ⟨r.phase, r.task, r.baseHours * (lux_units : ℚ), true⟩
  else if tag = "typ_units_4hr" then
    some ⟨r.phase, r.task, r.baseHours * (typ_units : ℚ), true⟩
  else if tag = "dom_units_2hr" then
    some ⟨r.phase, r.task, r.baseHours * (dom_units : ℚ), true⟩
  else
    some ⟨r.phase, r.task, r.baseHours, true⟩

/-- Embedding of build_plumbing_task_df_from_library (src/app.py lines
310-343): filter to enabled rows, resolve the tag overrides row by row,
and fall back to a sentinel row when nothing remains at either stage. -/
def build_plumbing_task_df_from_library (lib_df : List PTask) (podium : Bool)
    (lux_units typ_units dom_units : ℤ) : List LibRow :=
  let df := lib_df.filter (fun r => r.enabled)
  if df.isEmpty then [⟨"SD", "No plumbing tasks enabled", 1, true⟩]
  else
    let rows := df.filterMap (resolvePlumbRow podium lux_units typ_units dom_units)
    if rows.isEmpty then [⟨"SD", "No plumbing tasks enabled", 1, true⟩]
    else rows

/-- C6: a task whose stripped tag is one of the scale-by-unit-count tags
resolves to the weight `baseHours` (the hours per unit) times the
supplied unit count, for each of the three unit keys; this resolved
weight is what enters the allocation. -/
theorem C6_unit_scaling (podium : Bool) (lux typ dom : ℤ) (r : PTask) :
    (pyStrip r.tag = "lux_units_4hr" →
      resolvePlumbRow podium lux typ dom r =
        some ⟨r.phase, r.task, r.baseHours * (lux : ℚ), true⟩) ∧
    (pyStrip r.tag = "typ_units_4hr" →
      resolvePlumbRow podium lux typ dom r =
        some ⟨r.phase, r.task, r.baseHours * (typ : ℚ), true⟩) ∧
    (pyStrip r.tag = "dom_units_2hr" →
      resolvePlumbRow podium lux typ dom r =
        some ⟨r.phase, r.task, r.baseHours * (dom : ℚ), true⟩) := by
  refine ⟨fun h => ?_, fun h => ?_, fun h => ?_⟩ <;> simp +decide [resolvePlumbRow, h]

theorem C6_witness :
    pyStrip "lux_units_4hr" = "lux_units_4hr" ∧
    resolvePlumbRow true 8 12 25
        ⟨"SD", "SAN/VENT - Luxury Units (hr/unit)", 4, "lux_units_4hr", true⟩ =
      some ⟨"SD", "SAN/VENT - Luxury Units (hr/unit)", (4:ℚ) * ((8:ℤ) : ℚ), true⟩ ∧
    (4:ℚ) * ((8:ℤ) : ℚ) = 32 :=
  ⟨by decide,
   (C6_unit_scaling true 8 12 25
     ⟨"SD", "SAN/VENT - Luxury Units (hr/unit)", 4, "lux_units_4hr", true⟩).1 (by decide),
   by norm_num⟩

theorem plumb_filterMap_drop (lux typ dom : ℤ) (df : List PTask) :
    df.filterMap (resolvePlumbRow false lux typ dom) =
      (df.filter (fun x => !(pyStrip x.tag == "podium_only"))).filterMap
        (resolvePlumbRow false lux typ dom) := by
  induction df with
  | nil => rfl
  | cons r rest ih =>
    by_cases hpod : pyStrip r.tag = "podium_only"
    · have h1 : resolvePlumbRow false lux typ dom r = none := by
        simp [resolvePlumbRow, hpod]
      have h2 : (!(pyStrip r.tag == "podium_only")) = false := by
        simp [hpod]
      simp [List.filterMap_cons, List.filter_cons, h1, h2, ih]
    · have h2 : (!(pyStrip r.tag == "podium_only")) = true := by
        simp [hpod]
      cases hres : resolvePlumbRow false lux typ dom r <;>
        simp [List.filterMap_cons, List.filter_cons, h2, hres, ih]

theorem build_plumb_drop (lux typ dom : ℤ) (lib : List PTask) :
    build_plumbing_task_df_from_library lib false lux typ dom =
      build_plumbing_task_df_from_library
        (lib.filter (fun x => !(pyStrip x.tag == "podium_only"))) false lux typ dom := by
  have hcomm : (lib.filter (fun x => !(pyStrip x.tag == "podium_only"))).filter
        (fun r => r.enabled) =
      (lib.filter (fun r => r.enabled)).filter
        (fun x => !(pyStrip x.tag == "podium_only")) := by
    rw [List.filter_filter, List.filter_filter]
    congr 1
    funext x
    exact Bool.and_comm _ _
  simp only [build_plumbing_task_df_from_library, List.isEmpty_iff]
  rw [hcomm, ← plumb_filterMap_drop]
  by_cases hA : lib.filter (fun r : PTask => r.enabled) = []
  · rw [hA]
    simp
  · rw [if_neg hA]
    by_cases hB : (lib.filter (fun r : PTask => r.enabled)).filter
        (fun x => !(pyStrip x.tag == "podium_only")) = []
    · have hrows : (lib.filter (fun r : PTask => r.enabled)).filterMap
          (resolvePlumbRow false lux typ dom) = [] := by
        rw [plumb_filterMap_drop, hB]
        rfl
      rw [if_pos hB, if_pos hrows]
    · rw [if_neg hB]

/-- C7: for an enabled task whose stripped tag is "podium_only": with
podium on it resolves to a candidate row with its base weight unchanged,
and with podium off the resolution yields none (the row is skipped);
moreover with podium off the whole plumbing builder output is identical
to the output on the library with every podium_only row removed — the
task is dropped entirely, contributing no row, rather than appearing
zeroed in place. -/
theorem C7_podium_conditional (podium : Bool) (lux typ dom : ℤ) :
    (∀ r : PTask, pyStrip r.tag = "podium_only" →
      ((resolvePlumbRow podium lux typ dom r =
          some ⟨r.phase, r.task, r.baseHours, true⟩ ↔ podium = true) ∧
        (resolvePlumbRow podium lux typ dom r = none ↔ podium = false))) ∧
    (∀ lib : List PTask,
      build_plumbing_task_df_from_library lib false lux typ dom =
        build_plumbing_task_df_from_library
          (lib.filter (fun x => !(pyStrip x.tag == "podium_only"))) false lux typ dom) := by
  constructor
  · intro r htag
    cases podium <;> simp [resolvePlumbRow, htag]
  · exact build_plumb_drop lux typ dom

theorem C7_witness :
    pyStrip "podium_only" = "podium_only" ∧
    (resolvePlumbRow false 8 12 25
        ⟨"SD", "STORM - Podium Sizing", 9, "podium_only", true⟩ = none ↔ false = false) ∧
    build_plumbing_task_df_from_library
        [⟨"SD", "STORM - Podium Sizing", 9, "podium_only", true⟩,
         ⟨"SD", "Domestic - Initial Sizing", 4, "", true⟩] false 8 12 25 =
      build_plumbing_task_df_from_library
        ([⟨"SD", "STORM - Podium Sizing", 9, "podium_only", true⟩,
          ⟨"SD", "Domestic - Initial Sizing", 4, "", true⟩].filter
          (fun x => !(pyStrip x.tag == "podium_only"))) false 8 12 25 :=
  ⟨by decide,
   ((C7_podium_conditional false 8 12 25).1
     ⟨"SD", "STORM - Podium Sizing", 9, "podium_only", true⟩ (by decide)).2,
   (C7_podium_conditional false 8 12 25).2
     [⟨"SD", "STORM - Podium Sizing", 9, "podium_only", true⟩,
      ⟨"SD", "Domestic - Initial Sizing", 4, "", true⟩]⟩

/-- Embedding of the discipline fee computation (src/app.py lines
706-708): each discipline fee is the area-based MEP fee times the RAW
percentage over 100 — `area_mep_fee * (electrical_pct / 100.0)` and
likewise for the other two disciplines — with no normalization. -/
def electrical_target_fee (area_mep_fee pct : ℚ) : ℚ :=
  area_mep_fee * (pct / 100)

/-- The discipline fees as the SPEC states them, for comparison with the
code: the MEP fee times the NORMALIZED discipline fraction, entrywise
over the discipline percentage map. -/
def disciplineFeesSpec (mepFee : ℚ) (disciplinePct : WeightMap) : WeightMap :=
  (normalize disciplinePct).map (fun kv => (kv.1, mepFee * kv.2))

/-- C5 counterexample: with discipline percentages 50/50/50 (sum 150) and
MEP fee 100, the code assigns the electrical discipline
100 × 50/100 = 50, while the spec formula with the normalizer assigns
100 × (50/150) = 100/3 — the code does NOT normalize the discipline
percentages. -/
theorem C5_counterexample :
    electrical_target_fee 100 50 = 50 ∧
    disciplineFeesSpec 100 [("electrical", 50), ("plumbing_fire", 50), ("mechanical", 50)] =
      [("electrical", 100/3), ("plumbing_fire", 100/3), ("mechanical", 100/3)] ∧
    (50 : ℚ) ≠ 100/3 := by
  refine ⟨by norm_num [electrical_target_fee], ?_, by norm_num⟩
  simp +decide [disciplineFeesSpec, normalize, clampedTotal] <;> norm_num

/-- C5 (amended): each discipline fee is the MEP fee times the RAW
percentage over 100; this agrees with the spec formula (MEP fee times
the normalized fraction) exactly when the nonnegative discipline
percentages sum to 100 — the normalizer does not absorb other totals in
the code, because the code never normalizes the discipline map. -/
theorem C5_discipline_fee_raw_pct (disciplinePct : WeightMap) (mepFee : ℚ)
    (h0 : ∀ kv ∈ disciplinePct, 0 ≤ kv.2)
    (hsum : (disciplinePct.map (fun kv => kv.2)).sum = 100) :
    disciplineFeesSpec mepFee disciplinePct =
      disciplinePct.map (fun kv => (kv.1, electrical_target_fee mepFee kv.2)) := by
  have hclamp : clampedTotal disciplinePct = 100 := by
    unfold clampedTotal
    rw [List.map_congr_left (fun kv hkv => max_eq_left (h0 kv hkv))]
    exact hsum
  simp only [disciplineFeesSpec, normalize, hclamp]
  rw [if_neg (by norm_num : ¬(100:ℚ) ≤ 0), List.map_map]
  apply List.map_congr_left
  intro kv hkv
  simp only [Function.comp_def, electrical_target_fee]
  rw [max_eq_left (h0 kv hkv)]

theorem C5_witness :
    (([("electrical", 28), ("plumbing_fire", 24), ("mechanical", 48)] : WeightMap).map
        (fun kv => kv.2)).sum = 100 ∧
    disciplineFeesSpec 52500 [("electrical", 28), ("plumbing_fire", 24), ("mechanical", 48)] =
      ([("electrical", 28), ("plumbing_fire", 24), ("mechanical", 48)] : WeightMap).map
        (fun kv => (kv.1, electrical_target_fee 52500 kv.2)) :=
  ⟨by norm_num,
   C5_discipline_fee_raw_pct [("electrical", 28), ("plumbing_fire", 24), ("mechanical", 48)]
     52500 (by decide) (by norm_num)⟩

end WorkplanApp
